import Mathlib

/-!
Shallow embedding of the go-daikin repository: the parameter codec and the
response framing from the daikin package source, and the discovery scanner
from net.go.  Go machine integers are modelled as Int, with an explicit
reduction modulo 2 ^ 32 where the code performs a narrowing conversion to
int32.  Fallible decodes return Option (none is the Go error return).
-/

namespace GoDaikin

/-- Value of a digit run, mirroring the accumulator loop of
strconv.ParseInt in base 10; fails on the first non-digit character. -/
def digitsVal : List Char → Nat → Option Nat
  | [], acc => some acc
  | c :: rest, acc =>
    if c.isDigit then digitsVal rest (acc * 10 + (c.toNat - 48)) else none

/-- Digit-string value; strconv rejects an empty digit run. -/
def parseDigits (cs : List Char) : Option Nat :=
  match cs with
  | [] => none
  | _ => digitsVal cs 0

/-- Signed integer syntax accepted by strconv.ParseInt: an optional single
leading plus or minus sign followed by one or more decimal digits. -/
def signedVal : List Char → Option Int
  | '+' :: rest => (parseDigits rest).map (fun n => (n : Int))
  | '-' :: rest => (parseDigits rest).map (fun n => -(n : Int))
  | cs => (parseDigits cs).map (fun n => (n : Int))

def int64Min : Int := -(2 ^ 63)

def int64Max : Int := 2 ^ 63 - 1

/-- Model of strconv.Atoi on a 64-bit platform: parse a signed decimal
integer, failing on syntax errors and on values outside the int64 range
(strconv returns ErrRange there, which the decoders treat as failure). -/
def goAtoi (s : String) : Option Int :=
  (signedVal s.data).bind fun v =>
    if v < int64Min ∨ int64Max < v then none else some v

/-- Narrowing conversion from Go int (64-bit) to int32: keep the low 32
bits and reinterpret them as a two's-complement signed value. -/
def toInt32 (v : Int) : Int := (v + 2 ^ 31) % 2 ^ 32 - 2 ^ 31

/-- Power is the Go type Power int. -/
abbrev Power := Int

def PowerOff : Power := 0

def PowerOn : Power := 1

/-- Wire write performed by Power.setUrlValues: key pow, value
strconv.Itoa of the integer. -/
def Power.setUrlValues (p : Power) : String × String := ("pow", toString p)

/-- Power.decode: switch on the raw string, error on anything else. -/
def Power.decode (s : String) : Option Power :=
  if s = "0" then some PowerOff
  else if s = "1" then some PowerOn
  else none

/-- Mode is the Go type Mode int. -/
abbrev Mode := Int

def ModeDehumidify : Mode := 2

def ModeCool : Mode := 3

def ModeHeat : Mode := 4

def ModeFan : Mode := 6

def ModeAuto : Mode := 0

def ModeAuto1 : Mode := 1

def ModeAuto7 : Mode := 7

/-- Wire write performed by Mode.setUrlValues: key mode, value
strconv.Itoa of the integer. -/
def Mode.setUrlValues (m : Mode) : String × String := ("mode", toString m)

/-- Mode.decode: switch on the raw string, error on anything else. -/
def Mode.decode (s : String) : Option Mode :=
  if s = "2" then some ModeDehumidify
  else if s = "3" then some ModeCool
  else if s = "4" then some ModeHeat
  else if s = "6" then some ModeFan
  else if s = "0" then some ModeAuto
  else if s = "1" then some ModeAuto1
  else if s = "7" then some ModeAuto7
  else none

/-- Fan is the Go type Fan string. -/
abbrev Fan := String

def FanAuto : Fan := "A"

def FanSilent : Fan := "B"

def Fan1 : Fan := "3"

def Fan2 : Fan := "4"

def Fan3 : Fan := "5"

def Fan4 : Fan := "6"

def Fan5 : Fan := "7"

/-- Wire write performed by Fan.setUrlValues: key f_rate, value the
string itself. -/
def Fan.setUrlValues (f : Fan) : String × String := ("f_rate", f)

/-- Fan.decode: switch on the raw string, error on anything else. -/
def Fan.decode (s : String) : Option Fan :=
  if s = "A" then some FanAuto
  else if s = "B" then some FanSilent
  else if s = "3" then some Fan1
  else if s = "4" then some Fan2
  else if s = "5" then some Fan3
  else if s = "6" then some Fan4
  else if s = "7" then some Fan5
  else none

/-- FanDir is the Go type FanDir int. -/
abbrev FanDir := Int

def FanDirStopped : FanDir := 0

def FanDirVertical : FanDir := 1

def FanDirHorizontal : FanDir := 2

def FanDirBoth : FanDir := 3

/-- fanDirMap, the display-name table whose key set FanDir.decode uses as
its domain check. -/
def fanDirMap : List (FanDir × String) :=
  [(FanDirStopped, "Stopped"), (FanDirVertical, "Vertical"),
   (FanDirHorizontal, "Horizontal"), (FanDirBoth, "Both")]

/-- Wire write performed by FanDir.setUrlValues: key f_dir, value
strconv.Itoa of the integer. -/
def FanDir.setUrlValues (f : FanDir) : String × String := ("f_dir", toString f)

/-- FanDir.decode: strconv.Atoi the raw string, then require the value to
be a key of fanDirMap. -/
def FanDir.decode (s : String) : Option FanDir :=
  match goAtoi s with
  | none => none
  | some v => if (fanDirMap.lookup v).isSome then some v else none

/-- Humidity is the Go type Humidity int32. -/
abbrev Humidity := Int

/-- Wire write performed by Humidity.setUrlValues: key shum, value
strconv.Itoa of the integer. -/
def Humidity.setUrlValues (h : Humidity) : String × String := ("shum", toString h)

/-- Humidity.decode: rewrite the sentinel "-" to "-1", strconv.Atoi the
result, then narrow the Go int to int32. -/
def Humidity.decode (s : String) : Option Humidity :=
  let v := if s = "-" then "-1" else s
  (goAtoi v).map toInt32

/-- The closed set of Power constants. -/
def powerDomain : List Power := [PowerOff, PowerOn]

/-- The closed set of Mode constants. -/
def modeDomain : List Mode :=
  [ModeDehumidify, ModeCool, ModeHeat, ModeFan, ModeAuto, ModeAuto1, ModeAuto7]

/-- The closed set of Fan constants. -/
def fanDomain : List Fan := [FanAuto, FanSilent, Fan1, Fan2, Fan3, Fan4, Fan5]

/-- The closed set of FanDir constants. -/
def fanDirDomain : List FanDir :=
  [FanDirStopped, FanDirVertical, FanDirHorizontal, FanDirBoth]

/-- Wire codes accepted by Power.decode (the Power domain table). -/
def powerCodes : List String := ["0", "1"]

/-- Wire codes accepted by Mode.decode (the Mode domain table). -/
def modeCodes : List String := ["2", "3", "4", "6", "0", "1", "7"]

/-- Wire codes accepted by Fan.decode (the Fan domain table). -/
def fanCodes : List String := ["A", "B", "3", "4", "5", "6", "7"]

/-- Wire codes produced by FanDir.setUrlValues over the FanDir constants
(the FanDir domain table). -/
def fanDirCodes : List String := ["0", "1", "2", "3"]

/-- Scanner state of the CSV reader from encoding/csv with its default
configuration (comma separator, strict quoting, no comments). -/
inductive CsvMode
  | fieldStart
  | unquoted
  | quoted
  | postQuote
deriving DecidableEq, Repr

/-- Character-level scanner for encoding/csv Reader.ReadAll with default
settings: records end at a newline (a CRLF is normalised to LF), blank
lines are skipped, a field starting with a quote is a quoted field in
which doubled quotes escape a quote, a quote inside a non-quoted field is
an error, and a quote followed by anything but a separator is an error.
cur holds the current field reversed, flds the fields of the current
record reversed, recs the finished records reversed. -/
def csvScan : List Char → CsvMode → List Char → List String →
    List (List String) → Except String (List (List String))
  | [], .fieldStart, _, flds, recs =>
    if flds.isEmpty then .ok recs.reverse
    else .ok (((("" : String) :: flds).reverse :: recs).reverse)
  | '"' :: rest, .fieldStart, _, flds, recs => csvScan rest .quoted [] flds recs
  | ',' :: rest, .fieldStart, _, flds, recs =>
    csvScan rest .fieldStart [] ("" :: flds) recs
  | '\r' :: '\n' :: rest, .fieldStart, _, flds, recs =>
    if flds.isEmpty then csvScan rest .fieldStart [] [] recs
    else csvScan rest .fieldStart [] [] ((("" :: flds).reverse) :: recs)
  | '\n' :: rest, .fieldStart, _, flds, recs =>
    if flds.isEmpty then csvScan rest .fieldStart [] [] recs
    else csvScan rest .fieldStart [] [] ((("" :: flds).reverse) :: recs)
  | c :: rest, .fieldStart, _, flds, recs => csvScan rest .unquoted [c] flds recs
  | [], .unquoted, cur, flds, recs =>
    .ok (((String.mk cur.reverse :: flds).reverse :: recs).reverse)
  | ',' :: rest, .unquoted, cur, flds, recs =>
    csvScan rest .fieldStart [] (String.mk cur.reverse :: flds) recs
  | '\r' :: '\n' :: rest, .unquoted, cur, flds, recs =>
    csvScan rest .fieldStart [] [] ((String.mk cur.reverse :: flds).reverse :: recs)
  | '\n' :: rest, .unquoted, cur, flds, recs =>
    csvScan rest .fieldStart [] [] ((String.mk cur.reverse :: flds).reverse :: recs)
  | '"' :: _, .unquoted, _, _, _ => .error "bare \" in non-quoted field"
  | c :: rest, .unquoted, cur, flds, recs => csvScan rest .unquoted (c :: cur) flds recs
  | [], .quoted, _, _, _ => .error "extraneous or missing \" in quoted-field"
  | '"' :: rest, .quoted, cur, flds, recs => csvScan rest .postQuote cur flds recs
  | '\r' :: '\n' :: rest, .quoted, cur, flds, recs =>
    csvScan rest .quoted ('\n' :: cur) flds recs
  | c :: rest, .quoted, cur, flds, recs => csvScan rest .quoted (c :: cur) flds recs
  | [], .postQuote, cur, flds, recs =>
    .ok (((String.mk cur.reverse :: flds).reverse :: recs).reverse)
  | '"' :: rest, .postQuote, cur, flds, recs => csvScan rest .quoted ('"' :: cur) flds recs
  | ',' :: rest, .postQuote, cur, flds, recs =>
    csvScan rest .fieldStart [] (String.mk cur.reverse :: flds) recs
  | '\r' :: '\n' :: rest, .postQuote, cur, flds, recs =>
    csvScan rest .fieldStart [] [] ((String.mk cur.reverse :: flds).reverse :: recs)
  | '\n' :: rest, .postQuote, cur, flds, recs =>
    csvScan rest .fieldStart [] [] ((String.mk cur.reverse :: flds).reverse :: recs)
  | _ :: _, .postQuote, _, _, _ => .error "extraneous or missing \" in quoted-field"

/-- Field-count validation of encoding/csv with FieldsPerRecord = 0: every
record must have as many fields as the first. -/
def checkFieldCounts (recs : List (List String)) : Except String (List (List String)) :=
  match recs with
  | [] => .ok []
  | r :: rest =>
    if rest.all (fun x => x.length == r.length) then .ok recs
    else .error "wrong number of fields"

/-- csv.NewReader(...).ReadAll() over the response body. -/
def csvReadAll (s : String) : Except String (List (List String)) :=
  match csvScan s.data .fieldStart [] [] [] with
  | .error e => .error e
  | .ok recs => checkFieldCounts recs

/-- Split on the first occurrence of the equals sign, the char-list core
of strings.SplitN(rec, "=", 2). -/
def splitFirstEq : List Char → Option (List Char × List Char)
  | [] => none
  | c :: cs =>
    if c = '=' then some ([], cs)
    else (splitFirstEq cs).map (fun p => (c :: p.1, p.2))

/-- strings.SplitN(s, "=", 2): a one-element list when s has no equals
sign, otherwise the part before the first equals sign and the rest. -/
def splitN2 (s : String) : List String :=
  match splitFirstEq s.data with
  | none => [s]
  | some p => [String.mk p.1, String.mk p.2]

/-- Outcome of parseResponse: a mapping, a returned error, or a runtime
panic (an out-of-range index). -/
inductive ParseResult
  | ok (values : List (String × String))
  | err (msg : String)
  | indexOutOfRange (msg : String)
deriving DecidableEq, Repr

/-- Assignment values[k] = v on the insertion-ordered model of the Go
map. -/
def mapSet : List (String × String) → String → String → List (String × String)
  | [], k, v => [(k, v)]
  | (k0, v0) :: rest, k, v =>
    if k0 = k then (k0, v) :: rest else (k0, v0) :: mapSet rest k v

/-- Loop body of parseResponse over the tokens of the single record:
parts := strings.SplitN(rec, "=", 2); values[parts[0]] = parts[1].  A
token with no equals sign makes parts a one-element list, so reading
parts[1] is an out-of-range access, modelled as none. -/
def buildValues : List String → List (String × String) → Option (List (String × String))
  | [], acc => some acc
  | rec :: rest, acc =>
    match splitN2 rec with
    | [k, v] => buildValues rest (mapSet acc k v)
    | _ => none

/-- Row-count check and token loop of parseResponse, after the CSV read
succeeded. -/
def frameRecords : List (List String) → ParseResult
  | [rec] =>
    match buildValues rec [] with
    | some vals => ParseResult.ok vals
    | none => ParseResult.indexOutOfRange "index out of range"
  | records =>
    ParseResult.err ("Have " ++ toString records.length ++ " rows of records, want just one")

/-- parseResponse from the daikin package, over the already-read body
string: CSV-read the body, require exactly one record, then split each
token at its first equals sign into the values map. -/
def parseResponse (body : String) : ParseResult :=
  match csvReadAll body with
  | .error e => ParseResult.err e
  | .ok records => frameRecords records

/-- Interface flag bits of the net package. -/
def flagUp : Nat := 1

def flagBroadcast : Nat := 2

def flagLoopback : Nat := 4

def flagPointToPoint : Nat := 8

def flagMulticast : Nat := 16

/-- wantFlags = net.FlagUp | net.FlagBroadcast | net.FlagMulticast. -/
def wantFlags : Nat := flagUp ||| flagBroadcast ||| flagMulticast

/-- Skip condition of the interface loop in getBroadcastAddresses:
continue when i.Flags != wantFlags, or when a specific interface is
configured and the name differs. -/
def interfaceSkipped (flags : Nat) (name iface : String) : Bool :=
  flags != wantFlags || (iface != "" && name != iface)

/-- udpQueryPayload, the discovery beacon. -/
def udpQueryPayload : String := "DAIKIN_UDP/common/basic_info"

/-- Per-octet broadcast computation of getBroadcastAddresses: the network
address from net.ParseCIDR (the interface address masked, octet by octet)
or-ed with 0xff minus the mask octet. -/
def broadcastOf (ip mask : List Nat) : List Nat :=
  List.zipWith (fun n m => n ||| (0xff - m))
    (List.zipWith (fun a b => a &&& b) ip mask) mask

/-- One interface address as getBroadcastAddresses observes it: a string
net.ParseCIDR rejects, a non-IPv4 address, or an IPv4 address with its
four-octet address and mask. -/
inductive IfAddr
  | parseError
  | v6
  | v4 (ip mask : List Nat)
deriving DecidableEq, Repr

/-- One local network interface: its flag bits, name, whether Addrs()
fails, and its addresses. -/
structure NetInterface where
  flags : Nat
  name : String
  addrsErr : Bool
  addrs : List IfAddr
deriving DecidableEq, Repr

/-- The network environment a discovery run observes: whether
net.Interfaces() fails, the interface list, whether the UDP bind fails,
and the source addresses of the discovery replies in arrival order (the
pollers run concurrently, so an arbitrary interleaving is any list). -/
structure NetEnv where
  interfacesErr : Bool
  interfaces : List NetInterface
  bindErr : Bool
  replies : List String
deriving DecidableEq, Repr

/-- A Daikin device registry entry: &Daikin{Address: ip} with an optional
token. -/
structure Daikin where
  address : String
  token : String
deriving DecidableEq, Repr

/-- DaikinNetwork state: configured interface name, poll interval and
count, the device registry, and the computed broadcast addresses. -/
structure DaikinNetwork where
  interface : String
  pollInterval : Nat
  pollCount : Int
  devices : List (String × Daikin)
  broadcasts : List (List Nat)
deriving DecidableEq, Repr

/-- getBroadcastAddresses: reset d.broadcasts, fail if interface
enumeration fails, collect the broadcast address of every IPv4 address of
every non-skipped interface (an Addrs() failure skips that interface),
and fail when a named interface produced no addresses. -/
def getBroadcastAddresses (d : DaikinNetwork) (env : NetEnv) :
    DaikinNetwork × Option String :=
  let d0 := { d with broadcasts := [] }
  if env.interfacesErr then (d0, some "interfaces error")
  else
    let bcasts := env.interfaces.foldl
      (fun acc i =>
        if interfaceSkipped i.flags i.name d0.interface then acc
        else if i.addrsErr then acc
        else acc ++ i.addrs.filterMap (fun a =>
          match a with
          | IfAddr.parseError => none
          | IfAddr.v6 => none
          | IfAddr.v4 ip mask => some (broadcastOf ip mask))) []
    let d1 := { d0 with broadcasts := bcasts }
    if bcasts.isEmpty && d0.interface != "" then
      (d1, some ("no interface or no addresses: " ++ d0.interface))
    else (d1, none)

/-- Reply registration in the poller: a source address already present in
the registry is left alone, a new one is added as a bare device. -/
def registerReply (devs : List (String × Daikin)) (ip : String) :
    List (String × Daikin) :=
  if (devs.map Prod.fst).contains ip then devs
  else devs ++ [(ip, { address := ip, token := "" })]

/-- Observable network actions of a discovery run. -/
inductive NetEvent
  | enumerate
  | bind (port : Nat)
  | send (dst : List Nat) (port : Nat) (payload : String)
  | recv (src : String)
deriving DecidableEq, Repr

/-- Discover: return immediately when PollCount < 1; otherwise enumerate
broadcast addresses (propagating failure), bind the local UDP socket
(propagating failure), send the beacon PollCount times per broadcast
address, and register each reply's source address.  The poller tasks run
concurrently and the replies list already stands for one arbitrary
interleaving of their receives, so the registry fold is sequential. -/
def discover (d : DaikinNetwork) (env : NetEnv) :
    DaikinNetwork × List NetEvent × Option String :=
  if d.pollCount < 1 then (d, [], none)
  else
    match getBroadcastAddresses d env with
    | (d1, some e) => (d1, [NetEvent.enumerate], some e)
    | (d1, none) =>
      if env.bindErr then (d1, [NetEvent.enumerate], some "bind error")
      else
        let sends := d1.broadcasts.foldr
          (fun b acc =>
            List.replicate d1.pollCount.toNat (NetEvent.send b 30050 udpQueryPayload) ++ acc) []
        let replies := if d1.broadcasts.isEmpty then [] else env.replies
        let devs := replies.foldl registerReply d1.devices
        ({ d1 with devices := devs },
         NetEvent.enumerate :: NetEvent.bind 30000 :: (sends ++ replies.map NetEvent.recv),
         none)

set_option maxRecDepth 4096 in
/-- Bytewise complement identity used by the broadcast computation: for a
mask octet, subtracting from 0xff is the same as xor with 0xff. -/
lemma byte_sub_eq_xor : ∀ m : Nat, m < 256 → 255 - m = 255 ^^^ m := by decide

/-- Broadcast octets are the network address or-ed with the complement of
the mask, octet by octet, whenever the mask octets are bytes. -/
lemma broadcastOf_eq (ip mask : List Nat) (h : ∀ m ∈ mask, m < 256) :
    broadcastOf ip mask =
      List.zipWith (fun a m => (a &&& m) ||| (255 ^^^ m)) ip mask := by
  induction ip generalizing mask with
  | nil => cases mask <;> rfl
  | cons a as ih =>
    cases mask with
    | nil => rfl
    | cons m ms =>
      have h1 : m < 256 := h m (by simp)
      have h2 : ∀ x ∈ ms, x < 256 := fun x hx => h x (by simp [hx])
      have ht := ih ms h2
      unfold broadcastOf at ht ⊢
      simp only [List.zipWith_cons_cons]
      rw [byte_sub_eq_xor m h1, ht]

/-- C1: the spec says an interface is selected when its flag set includes
up, broadcast and multicast, with no requirement of exactly those flags
and no others; but the code compares i.Flags to wantFlags with equality,
so an interface carrying one extra flag (loopback here) includes all
three wanted flags and is nevertheless skipped, and its IPv4 address
produces no broadcast address. -/
theorem interface_selection_cex :
    wantFlags &&& (wantFlags ||| flagLoopback) = wantFlags ∧
    interfaceSkipped (wantFlags ||| flagLoopback) "eth0" "" = true ∧
    (getBroadcastAddresses ⟨"", 1000, 1, [], []⟩
        ⟨false, [⟨wantFlags ||| flagLoopback, "eth0", false,
          [IfAddr.v4 [192, 168, 1, 42] [255, 255, 255, 0]]⟩], false, []⟩).1.broadcasts
      = [] := by
  decide

/-- C1 (amended): an interface is selected for broadcast-address
computation exactly when its flag set equals up|broadcast|multicast and,
when an interface name is configured, its name matches; an interface with
exactly those flags does feed the broadcast computation. -/
theorem interface_selection (flags : Nat) (name iface : String) :
    (interfaceSkipped flags name iface = false ↔
      (flags = wantFlags ∧ (iface = "" ∨ name = iface))) ∧
    (getBroadcastAddresses ⟨"", 1000, 1, [], []⟩
        ⟨false, [⟨wantFlags, "eth0", false,
          [IfAddr.v4 [192, 168, 1, 42] [255, 255, 255, 0]]⟩], false, []⟩).1.broadcasts
      = [[192, 168, 1, 255]] := by
  constructor
  · unfold interfaceSkipped
    constructor
    · intro h
      rcases Bool.or_eq_false_iff.mp h with ⟨h1, h2⟩
      refine ⟨by simpa using h1, ?_⟩
      rcases Bool.and_eq_false_iff.mp h2 with h3 | h4
      · exact Or.inl (by simpa using h3)
      · exact Or.inr (by simpa using h4)
    · rintro ⟨rfl, h2⟩
      apply Bool.or_eq_false_iff.mpr
      refine ⟨by simp, Bool.and_eq_false_iff.mpr ?_⟩
      rcases h2 with rfl | rfl
      · exact Or.inl (by simp)
      · exact Or.inr (by simp)
  · decide

/-- C2: for every enumerated field type (Power, Mode, Fan, FanDir) and
every value in its closed domain of constants, decoding the wire string
written by setUrlValues yields the value again. -/
theorem enum_roundtrip :
    (∀ p ∈ powerDomain, Power.decode (Power.setUrlValues p).2 = some p) ∧
    (∀ m ∈ modeDomain, Mode.decode (Mode.setUrlValues m).2 = some m) ∧
    (∀ f ∈ fanDomain, Fan.decode (Fan.setUrlValues f).2 = some f) ∧
    (∀ f ∈ fanDirDomain, FanDir.decode (FanDir.setUrlValues f).2 = some f) := by
  refine ⟨?_, ?_, ?_, ?_⟩ <;> decide

/-- C2 witness: the round trip evaluated at one constant of each type. -/
theorem enum_roundtrip_witness :
    Power.decode (Power.setUrlValues PowerOn).2 = some PowerOn ∧
    Mode.decode (Mode.setUrlValues ModeHeat).2 = some ModeHeat ∧
    Fan.decode (Fan.setUrlValues FanAuto).2 = some FanAuto ∧
    FanDir.decode (FanDir.setUrlValues FanDirBoth).2 = some FanDirBoth :=
  ⟨enum_roundtrip.1 PowerOn (by decide), enum_roundtrip.2.1 ModeHeat (by decide),
   enum_roundtrip.2.2.1 FanAuto (by decide), enum_roundtrip.2.2.2 FanDirBoth (by decide)⟩

/-- C10: the CSV reader accepts the body "OK" as exactly one record, yet
parseResponse indexes parts[1] of a split that produced a single part, an
out-of-range access (a runtime panic), instead of returning a mapping or
an error. -/
theorem parse_token_without_eq :
    csvReadAll "OK" = Except.ok [["OK"]] ∧
    splitN2 "OK" = ["OK"] ∧
    parseResponse "OK" = ParseResult.indexOutOfRange "index out of range" :=
  ⟨rfl, rfl, rfl⟩

/-- C3: the spec says decode of any wire string outside the domain table
fails; but FanDir.decode goes through strconv.Atoi and a value lookup, so
the non-canonical integer spelling "01", which is outside the table and
never produced by the encoder, decodes successfully to FanDirVertical. -/
theorem decode_domain_cex :
    "01" ∉ fanDirCodes ∧
    (∀ f ∈ fanDirDomain, (FanDir.setUrlValues f).2 ≠ "01") ∧
    FanDir.decode "01" = some FanDirVertical := by
  refine ⟨by decide, by decide, by decide⟩

/-- C3 (amended): Power, Mode and Fan decode succeed exactly on the wire
codes of their tables (so Mode decode of "9" fails); FanDir decode
succeeds exactly on strings that strconv.Atoi parses to an integer key of
fanDirMap, which accepts non-canonical spellings of in-table values but
errors on every other string; no branch coerces a value silently. -/
theorem decode_domain (s : String) :
    ((Power.decode s).isSome = powerCodes.contains s) ∧
    ((Mode.decode s).isSome = modeCodes.contains s) ∧
    ((Fan.decode s).isSome = fanCodes.contains s) ∧
    ((FanDir.decode s).isSome = (goAtoi s).any fun v => (fanDirMap.lookup v).isSome) ∧
    Mode.decode "9" = none := by
  refine ⟨?_, ?_, ?_, ?_, by decide⟩
  · unfold Power.decode
    split_ifs with h0 h1
    · subst h0; decide
    · subst h1; decide
    · have c0 := beq_eq_false_iff_ne.mpr h0
      have c1 := beq_eq_false_iff_ne.mpr h1
      simp [powerCodes, List.contains_cons, c0, c1]
      exact ⟨h0, h1⟩
  · unfold Mode.decode
    split_ifs with h0 h1 h2 h3 h4 h5 h6
    · subst h0; decide
    · subst h1; decide
    · subst h2; decide
    · subst h3; decide
    · subst h4; decide
    · subst h5; decide
    · subst h6; decide
    · have c0 := beq_eq_false_iff_ne.mpr h0
      have c1 := beq_eq_false_iff_ne.mpr h1
      have c2 := beq_eq_false_iff_ne.mpr h2
      have c3 := beq_eq_false_iff_ne.mpr h3
      have c4 := beq_eq_false_iff_ne.mpr h4
      have c5 := beq_eq_false_iff_ne.mpr h5
      have c6 := beq_eq_false_iff_ne.mpr h6
      simp [modeCodes, List.contains_cons, c0, c1, c2, c3, c4, c5, c6]
      exact ⟨h0, h1, h2, h3, h4, h5, h6⟩
  · unfold Fan.decode
    split_ifs with h0 h1 h2 h3 h4 h5 h6
    · subst h0; decide
    · subst h1; decide
    · subst h2; decide
    · subst h3; decide
    · subst h4; decide
    · subst h5; decide
    · subst h6; decide
    · have c0 := beq_eq_false_iff_ne.mpr h0
      have c1 := beq_eq_false_iff_ne.mpr h1
      have c2 := beq_eq_false_iff_ne.mpr h2
      have c3 := beq_eq_false_iff_ne.mpr h3
      have c4 := beq_eq_false_iff_ne.mpr h4
      have c5 := beq_eq_false_iff_ne.mpr h5
      have c6 := beq_eq_false_iff_ne.mpr h6
      simp [fanCodes, List.contains_cons, c0, c1, c2, c3, c4, c5, c6]
      exact ⟨h0, h1, h2, h3, h4, h5, h6⟩
  · cases hg : goAtoi s with
    | none => simp [FanDir.decode, hg, Option.any]
    | some v =>
      by_cases hv : (fanDirMap.lookup v).isSome <;>
        simp [FanDir.decode, hg, Option.any, hv]

/-- Splitting at the first equals sign of a token built as key, equals
sign, value recovers the two parts when the key has no equals sign. -/
lemma splitFirstEq_append (k v : List Char) (h : '=' ∉ k) :
    splitFirstEq (k ++ '=' :: v) = some (k, v) := by
  induction k with
  | nil => simp [splitFirstEq]
  | cons c cs ih =>
    simp only [List.mem_cons, not_or] at h
    have hc : ¬ (c = '=') := fun hh => h.1 hh.symm
    simp [splitFirstEq, hc, ih h.2]

/-- A char list containing an equals sign splits successfully. -/
lemma splitFirstEq_mem (cs : List Char) (h : '=' ∈ cs) :
    ∃ p, splitFirstEq cs = some p := by
  induction cs with
  | nil => cases h
  | cons c cs ih =>
    by_cases hc : c = '='
    · exact ⟨([], cs), by simp [splitFirstEq, hc]⟩
    · have hm : '=' ∈ cs := by
        rcases List.mem_cons.mp h with h1 | h2
        · exact absurd h1.symm hc
        · exact h2
      rcases ih hm with ⟨p, hp⟩
      exact ⟨(c :: p.1, p.2), by simp [splitFirstEq, hc, hp]⟩

/-- The token loop of parseResponse completes when every token contains
an equals sign. -/
lemma buildValues_total (rec : List String) (acc : List (String × String))
    (h : ∀ t ∈ rec, '=' ∈ t.data) : ∃ vals, buildValues rec acc = some vals := by
  induction rec generalizing acc with
  | nil => exact ⟨acc, rfl⟩
  | cons t ts ih =>
    rcases splitFirstEq_mem t.data (h t (by simp)) with ⟨p, hp⟩
    have hs : splitN2 t = [String.mk p.1, String.mk p.2] := by simp [splitN2, hp]
    rcases ih (mapSet acc (String.mk p.1) (String.mk p.2))
        (fun x hx => h x (by simp [hx])) with ⟨vals, hv⟩
    exact ⟨vals, by simp [buildValues, hs, hv]⟩

/-- C4: the body "ret=OK,pow=1,mode=3" frames to the expected mapping;
any body the CSV reader parses into a number of records other than one is
rejected with a framing error; each token is split only at its first
equals sign, so values may contain equals signs; a single-record body of
key=value tokens always yields a mapping; the two-row body "a=1\nb=2"
fails with the framing error. -/
theorem response_framing :
    parseResponse "ret=OK,pow=1,mode=3"
      = ParseResult.ok [("ret", "OK"), ("pow", "1"), ("mode", "3")] ∧
    (∀ body recs, csvReadAll body = Except.ok recs → recs.length ≠ 1 →
      ∃ msg, parseResponse body = ParseResult.err msg) ∧
    (∀ k v : String, '=' ∉ k.data → splitN2 (k ++ "=" ++ v) = [k, v]) ∧
    (∀ body rec, csvReadAll body = Except.ok [rec] → (∀ t ∈ rec, '=' ∈ t.data) →
      ∃ vals, parseResponse body = ParseResult.ok vals) ∧
    parseResponse "a=1\nb=2" = ParseResult.err "Have 2 rows of records, want just one" := by
  refine ⟨rfl, ?_, ?_, ?_, rfl⟩
  · intro body recs h hne
    have hp : parseResponse body = frameRecords recs := by
      unfold parseResponse; rw [h]
    rw [hp]
    rcases recs with _ | ⟨r, _ | ⟨r2, rest⟩⟩
    · exact ⟨_, rfl⟩
    · exact absurd rfl hne
    · exact ⟨_, rfl⟩
  · intro k v hk
    obtain ⟨kl⟩ := k
    obtain ⟨vl⟩ := v
    have hdata : ((String.mk kl) ++ "=" ++ (String.mk vl)).data = kl ++ '=' :: vl := by
      rw [String.data_append, String.data_append]
      simp
    unfold splitN2
    rw [hdata, splitFirstEq_append kl vl hk]
  · intro body rec h hall
    have hp : parseResponse body = frameRecords [rec] := by
      unfold parseResponse; rw [h]
    rcases buildValues_total rec [] hall with ⟨vals, hv⟩
    exact ⟨vals, by rw [hp]; simp [frameRecords, hv]⟩

/-- C4 witness: the framing-error branch at the two-row body, the split
at the first equals sign with an equals sign inside the value, and the
success branch at a one-token body. -/
theorem response_framing_witness :
    (∃ msg, parseResponse "a=1\nb=2" = ParseResult.err msg) ∧
    splitN2 ("ab" ++ "=" ++ "c=d") = ["ab", "c=d"] ∧
    (∃ vals, parseResponse "k=v" = ParseResult.ok vals) :=
  ⟨response_framing.2.1 "a=1\nb=2" [["a=1"], ["b=2"]] rfl (by decide),
   response_framing.2.2.1 "ab" "c=d" (by decide),
   response_framing.2.2.2.1 "k=v" ["k=v"] rfl (by decide)⟩

/-- C5: for IPv4 interface addresses with byte-valued mask octets, the
broadcast address computed from the CIDR-derived network address equals,
octet by octet, the network address or-ed with the complement of the
mask; for interface address 192.168.1.42 with mask 255.255.255.0 the
result is 192.168.1.255. -/
theorem broadcast_formula (ip mask : List Nat) (h : ∀ m ∈ mask, m < 256) :
    broadcastOf ip mask =
      List.zipWith (fun a m => (a &&& m) ||| (255 ^^^ m)) ip mask ∧
    broadcastOf [192, 168, 1, 42] [255, 255, 255, 0] = [192, 168, 1, 255] :=
  ⟨broadcastOf_eq ip mask h, by decide⟩

/-- C5 witness: the formula at the spec's example address and mask. -/
theorem broadcast_formula_witness :
    broadcastOf [192, 168, 1, 42] [255, 255, 255, 0] =
      List.zipWith (fun a m => (a &&& m) ||| (255 ^^^ m))
        [192, 168, 1, 42] [255, 255, 255, 0] ∧
    broadcastOf [192, 168, 1, 42] [255, 255, 255, 0] = [192, 168, 1, 255] :=
  broadcast_formula [192, 168, 1, 42] [255, 255, 255, 0] (by decide)

/-- A Go int value in the int32 range is unchanged by the narrowing
conversion. -/
lemma toInt32_eq_self (v : Int) (h1 : -(2 ^ 31) ≤ v) (h2 : v < 2 ^ 31) :
    toInt32 v = v := by
  unfold toInt32
  rw [Int.emod_eq_of_lt (by omega) (by omega)]
  omega

/-- C6: the spec says Humidity decode maps any decimal integer string to
that integer; but Humidity is int32 and the decoded Go int is narrowed,
so "4294967297" decodes without error to 1, not to 4294967297. -/
theorem humidity_codec_cex :
    Humidity.decode "4294967297" = some 1 ∧ (1 : Humidity) ≠ 4294967297 :=
  ⟨by decide, by decide⟩

/-- C6 (amended): Humidity decode maps the sentinel "-" to -1 without
error; a decimal integer string parseable as a Go int is mapped to its
value narrowed to int32, hence to the integer itself whenever it fits in
int32 (such as "55"); any other string (non-integer syntax, or out of the
int64 range) fails; and Humidity encode of -1 produces "-1". -/
theorem humidity_codec (s : String) (v : Int) :
    Humidity.decode "-" = some (-1) ∧
    Humidity.decode "55" = some 55 ∧
    (Humidity.setUrlValues (-1)).2 = "-1" ∧
    Humidity.decode "abc" = none ∧
    (s ≠ "-" → goAtoi s = none → Humidity.decode s = none) ∧
    (goAtoi s = some v → -(2 ^ 31) ≤ v → v < 2 ^ 31 → Humidity.decode s = some v) := by
  refine ⟨by decide, by decide, by decide, by decide, ?_, ?_⟩
  · intro hs hg
    simp [Humidity.decode, hs, hg]
  · intro hg h1 h2
    have hsne : s ≠ "-" := by
      intro he
      rw [he] at hg
      exact Option.noConfusion ((rfl : goAtoi "-" = none) ▸ hg)
    simp [Humidity.decode, hsne, hg, toInt32_eq_self v h1 h2]

/-- C6 witness: the failure branch at a non-integer string and the
in-range branch at "55". -/
theorem humidity_codec_witness :
    Humidity.decode "xy" = none ∧ Humidity.decode "55" = some 55 :=
  ⟨(humidity_codec "xy" 0).2.2.2.2.1 (by decide) rfl,
   (humidity_codec "55" 55).2.2.2.2.2 rfl (by decide) (by decide)⟩

/-- C8: with PollCount below one, Discover returns immediately with no
error, touches no network (empty event trace, the environment is never
consulted), and leaves the whole scanner state, its registry included,
unchanged. -/
theorem discover_noop (d : DaikinNetwork) (env : NetEnv) (h : d.pollCount < 1) :
    discover d env = (d, [], none) := by
  unfold discover
  rw [if_pos h]

/-- C8 witness: a scanner with PollCount zero and a pre-seeded registry
entry, in an environment offering an interface and a reply, is returned
unchanged with an empty trace. -/
theorem discover_noop_witness :
    discover ⟨"", 1000, 0, [("10.0.0.5", ⟨"10.0.0.5", "tok"⟩)], []⟩
        ⟨false, [⟨19, "eth0", false, [IfAddr.v4 [10, 0, 0, 1] [255, 0, 0, 0]]⟩],
          false, ["10.0.0.9"]⟩
      = (⟨"", 1000, 0, [("10.0.0.5", ⟨"10.0.0.5", "tok"⟩)], []⟩, [], none) :=
  discover_noop _ _ (by decide)

/-- Registering one reply adds at most the reply's address to the
registry key set. -/
lemma mem_keys_registerReply (devs : List (String × Daikin)) (ip a : String) :
    a ∈ (registerReply devs ip).map Prod.fst ↔ a ∈ devs.map Prod.fst ∨ a = ip := by
  unfold registerReply
  by_cases h : (devs.map Prod.fst).contains ip
  · rw [if_pos h]
    constructor
    · exact Or.inl
    · rintro (ha | rfl)
      · exact ha
      · exact List.elem_iff.mp h
  · rw [if_neg h]
    simp [List.map_append]

/-- Registering one reply preserves distinctness of the registry keys. -/
lemma nodup_keys_registerReply (devs : List (String × Daikin)) (ip : String)
    (h : (devs.map Prod.fst).Nodup) : ((registerReply devs ip).map Prod.fst).Nodup := by
  unfold registerReply
  by_cases hc : (devs.map Prod.fst).contains ip
  · rwa [if_pos hc]
  · rw [if_neg hc]
    have hni : ip ∉ devs.map Prod.fst := fun hm => hc (List.elem_iff.mpr hm)
    rw [List.map_append]
    refine List.nodup_append.mpr ⟨h, List.nodup_singleton _, fun a ha hb => ?_⟩
    simp at hb
    exact hni (hb ▸ ha)

/-- The key set after a whole reply sequence is the initial key set plus
the reply addresses. -/
lemma mem_keys_foldl_registerReply (replies : List String)
    (devs : List (String × Daikin)) (a : String) :
    a ∈ (replies.foldl registerReply devs).map Prod.fst ↔
      a ∈ devs.map Prod.fst ∨ a ∈ replies := by
  induction replies generalizing devs with
  | nil => simp
  | cons r rs ih =>
    rw [List.foldl_cons, ih, mem_keys_registerReply]
    simp [or_assoc]

/-- A whole reply sequence preserves distinctness of the registry keys. -/
lemma nodup_keys_foldl_registerReply (replies : List String)
    (devs : List (String × Daikin)) (h : (devs.map Prod.fst).Nodup) :
    ((replies.foldl registerReply devs).map Prod.fst).Nodup := by
  induction replies generalizing devs with
  | nil => exact h
  | cons r rs ih => exact ih (registerReply devs r) (nodup_keys_registerReply devs r h)

/-- C9: a reply whose source address is already a registry key leaves the
registry unchanged (first-seen wins, no merging), and any sequence of
replies processed during one scan keeps the registry keys distinct, the
final key set being the initial keys plus the distinct reply addresses:
exactly one entry per distinct source address. -/
theorem discovery_dedup (devs : List (String × Daikin)) (ip : String)
    (replies : List String) :
    ((devs.map Prod.fst).contains ip = true → registerReply devs ip = devs) ∧
    ((devs.map Prod.fst).Nodup →
      (((replies.foldl registerReply devs).map Prod.fst).Nodup ∧
        ∀ a, a ∈ (replies.foldl registerReply devs).map Prod.fst ↔
          a ∈ devs.map Prod.fst ∨ a ∈ replies)) := by
  refine ⟨fun h => ?_, fun h =>
    ⟨nodup_keys_foldl_registerReply replies devs h,
     fun a => mem_keys_foldl_registerReply replies devs a⟩⟩
  unfold registerReply
  rw [if_pos h]

/-- C9 witness: a duplicate reply for a registered address is a no-op,
and a scan receiving the same new address twice keeps the keys distinct. -/
theorem discovery_dedup_witness :
    registerReply [("1.1.1.1", ⟨"1.1.1.1", ""⟩)] "1.1.1.1"
      = [("1.1.1.1", ⟨"1.1.1.1", ""⟩)] ∧
    ((["2.2.2.2", "2.2.2.2"].foldl registerReply
        [("1.1.1.1", ⟨"1.1.1.1", ""⟩)]).map Prod.fst).Nodup :=
  ⟨(discovery_dedup [("1.1.1.1", ⟨"1.1.1.1", ""⟩)] "1.1.1.1" []).1 (by decide),
   ((discovery_dedup [("1.1.1.1", ⟨"1.1.1.1", ""⟩)] "x"
      ["2.2.2.2", "2.2.2.2"]).2 (by decide)).1⟩

end GoDaikin
